import Mathlib

/-!
A shallow embedding of the `ComponentFocusManager` class from
`componentFocusManager.ts` (the component-focus package of this repository),
together with theorems about its registration, focus-transition,
subscription and cache-refresh-dispatch behaviour.

Listeners and query clients are opaque in the source (function references
and engine handles); they are modelled by numeric identifiers, and every
externally observable effect (listener invocation, cache call, console
diagnostic, observer disconnection) is recorded as an explicit event.
State objects additionally carry a `recordId` so that the unsubscribe
closure, which in the source captures the record object by reference,
can be modelled faithfully.
-/

namespace ComponentFocus

abbrev ComponentKey := String
abbrev ListenerId := Nat
abbrev QueryClientId := Nat

/-- Opaque token standing for an `InvalidateQueryFilters | RefetchQueryFilters`
value, which the manager only passes through to the query client. -/
abbrev QueryFilters := Nat

/-- The `refetchType` / `type` values handed to the query client. -/
inductive RefetchType where
  | all
  | active
deriving DecidableEq

/-- The three cache calls `handleComponentFocus` can make on the query client. -/
inductive CacheAction where
  | resetQueries (filters : Option QueryFilters)
  | invalidateQueries (filters : Option QueryFilters) (refetchType : RefetchType)
  | refetchQueries (filters : Option QueryFilters) (scope : RefetchType)
deriving DecidableEq

/-- `ComponentFocusManagerOptions`: every field is optional in the source. -/
structure ComponentFocusManagerOptions where
  refetchOnFocus : Option Bool := none
  invalidateOnFocus : Option Bool := none
  resetOnFocus : Option Bool := none
  forceRefetch : Option Bool := none
  queryFilters : Option QueryFilters := none
deriving DecidableEq

/-- One field of a JavaScript object spread `\x7b ...base, ...override \x7d`:
a key present on the override wins, otherwise the base value survives. -/
def mergeField {α : Type} (base override : Option α) : Option α :=
  match override with
  | some v => some v
  | none => base

/-- Object spread `\x7b ...base, ...override \x7d` on options records. -/
def mergeOptions (base override : ComponentFocusManagerOptions) :
    ComponentFocusManagerOptions where
  refetchOnFocus := mergeField base.refetchOnFocus override.refetchOnFocus
  invalidateOnFocus := mergeField base.invalidateOnFocus override.invalidateOnFocus
  resetOnFocus := mergeField base.resetOnFocus override.resetOnFocus
  forceRefetch := mergeField base.forceRefetch override.forceRefetch
  queryFilters := mergeField base.queryFilters override.queryFilters

/-- The literal defaults written in the constructor before the user options
are spread over them. -/
def defaultManagerOptions : ComponentFocusManagerOptions where
  refetchOnFocus := some true
  invalidateOnFocus := some true
  resetOnFocus := some false
  forceRefetch := some true
  queryFilters := none

/-- Per-key `ComponentFocusState`. `recordId` models the JavaScript object
identity of the record (closures capture the record by reference). -/
structure ComponentFocusState where
  focused : Bool
  queryClient : Option QueryClientId
  listeners : List ListenerId
  options : Option ComponentFocusManagerOptions
  recordId : Nat
deriving DecidableEq

/-- The manager's private fields. The two observer `Map`s only matter through
their key sets (the observer objects themselves are opaque host handles), so
they are modelled as key lists. -/
structure ComponentFocusManager where
  components : List (ComponentKey × ComponentFocusState)
  globalFocused : Bool
  intersectionObservers : List ComponentKey
  mutationObservers : List ComponentKey
  options : ComponentFocusManagerOptions
  nextRecordId : Nat
deriving DecidableEq

/-- Externally observable effects of a manager call. -/
inductive FocusEvent where
  | notifyListener (key : ComponentKey) (listenerId : ListenerId) (focused : Bool)
  | cacheDispatch (client : QueryClientId) (action : CacheAction)
  | warn (message : String)
  | disconnectIntersection (key : ComponentKey)
  | disconnectMutation (key : ComponentKey)
deriving DecidableEq

def isNotifyEvent : FocusEvent → Bool
  | FocusEvent.notifyListener _ _ _ => true
  | _ => false

def isCacheDispatch : FocusEvent → Bool
  | FocusEvent.cacheDispatch _ _ => true
  | _ => false

/-- `Map.get`: first (and with unique keys, only) entry under a key. -/
def findEntry (l : List (ComponentKey × ComponentFocusState)) (k : ComponentKey) :
    Option ComponentFocusState :=
  match l with
  | [] => none
  | (k', c) :: rest => if k' = k then some c else findEntry rest k

/-- In-place mutation of the record stored under a key (JavaScript mutates the
object held by the `Map`, leaving insertion order untouched). -/
def updateEntry (l : List (ComponentKey × ComponentFocusState)) (k : ComponentKey)
    (f : ComponentFocusState → ComponentFocusState) :
    List (ComponentKey × ComponentFocusState) :=
  l.map (fun p => if p.1 = k then (p.1, f p.2) else p)

/-- `Map.delete` on the components map. -/
def eraseEntry (l : List (ComponentKey × ComponentFocusState)) (k : ComponentKey) :
    List (ComponentKey × ComponentFocusState) :=
  match l with
  | [] => []
  | (k', c) :: rest => if k' = k then eraseEntry rest k else (k', c) :: eraseEntry rest k

/-- `Map.delete` on an observer key set. -/
def removeKey (l : List ComponentKey) (k : ComponentKey) : List ComponentKey :=
  match l with
  | [] => []
  | k' :: rest => if k' = k then removeKey rest k else k' :: removeKey rest k

/-- `Set.add` on a listener set: appends unless already present. -/
def addListener (listeners : List ListenerId) (l : ListenerId) : List ListenerId :=
  if l ∈ listeners then listeners else listeners ++ [l]

/-- `Set.delete` on a listener set. -/
def removeListener (listeners : List ListenerId) (l : ListenerId) : List ListenerId :=
  match listeners with
  | [] => []
  | l' :: rest => if l' = l then removeListener rest l else l' :: removeListener rest l

/-- The only facts about an `HTMLElement` the manager's bookkeeping depends
on: whether it has a `parentElement` (which decides whether a
`MutationObserver` is installed). -/
structure DomElement where
  hasParentElement : Bool
deriving DecidableEq

/-- The teardown closure returned by `registerComponent`: either the `noop`
returned on a missing element, or a closure that unregisters by key name. -/
inductive Teardown where
  | noop
  | unregisterKey (key : ComponentKey)
deriving DecidableEq

/-- The unsubscribe closure returned by `subscribeToComponent`: either the
`noop` returned on an unregistered key, or a closure deleting a listener from
the listener set of the record object it captured. -/
inductive Unsubscribe where
  | noop
  | removeFromRecord (recordId : Nat) (listenerId : ListenerId)
deriving DecidableEq

/-- `private handleComponentFocus(queryClient, componentOptions)`: merges the
per-registration options over the manager options and picks at most one cache
action by truthiness of the flags, in source order. -/
def handleComponentFocus (managerOptions : ComponentFocusManagerOptions)
    (componentOptions : Option ComponentFocusManagerOptions) : Option CacheAction :=
  let options := mergeOptions managerOptions (componentOptions.getD {})
  let queryFilters := options.queryFilters
  if options.resetOnFocus.getD false then
    some (CacheAction.resetQueries queryFilters)
  else if options.invalidateOnFocus.getD false then
    let refetchType := if options.forceRefetch.getD false then RefetchType.all else RefetchType.active
    some (CacheAction.invalidateQueries queryFilters refetchType)
  else if options.refetchOnFocus.getD false then
    some (CacheAction.refetchQueries queryFilters RefetchType.active)
  else
    none

/-- `setComponentFocus(componentKey, focused)`. -/
def setComponentFocus (m : ComponentFocusManager) (componentKey : ComponentKey)
    (focused : Bool) : ComponentFocusManager × List FocusEvent :=
  match findEntry m.components componentKey with
  | none => (m, [])
  | some component =>
    let previouslyFocused := component.focused
    let m' := { m with
      components := updateEntry m.components componentKey (fun c => { c with focused := focused }) }
    if previouslyFocused ≠ focused then
      let notifications := component.listeners.map
        (fun l => FocusEvent.notifyListener componentKey l focused)
      let dispatches :=
        if focused then
          match component.queryClient with
          | some qc =>
            (handleComponentFocus m.options component.options).toList.map
              (FocusEvent.cacheDispatch qc)
          | none => []
        else []
      (m', notifications ++ dispatches)
    else
      (m', [])

/-- `unregisterComponent(componentKey)`. -/
def unregisterComponent (m : ComponentFocusManager) (componentKey : ComponentKey) :
    ComponentFocusManager × List FocusEvent :=
  let intersectionEvents :=
    if componentKey ∈ m.intersectionObservers then
      [FocusEvent.disconnectIntersection componentKey]
    else []
  let mutationEvents :=
    if componentKey ∈ m.mutationObservers then
      [FocusEvent.disconnectMutation componentKey]
    else []
  ({ m with
      intersectionObservers := removeKey m.intersectionObservers componentKey
      mutationObservers := removeKey m.mutationObservers componentKey
      components := eraseEntry m.components componentKey },
   intersectionEvents ++ mutationEvents)

/-- `registerComponent(componentKey, element, queryClient?, componentOptions?)`.
Returns the resulting manager, the emitted events, and the teardown closure. -/
def registerComponent (m : ComponentFocusManager) (componentKey : ComponentKey)
    (element : Option DomElement) (queryClient : Option QueryClientId)
    (componentOptions : Option ComponentFocusManagerOptions) :
    ComponentFocusManager × List FocusEvent × Teardown :=
  match element with
  | none =>
    (m,
     [FocusEvent.warn ("ComponentFocusManager: Element not found for component " ++ componentKey)],
     Teardown.noop)
  | some el =>
    let prior := unregisterComponent m componentKey
    let m1 := prior.1
    let componentState : ComponentFocusState :=
      { focused := false
        queryClient := queryClient
        listeners := []
        options := componentOptions
        recordId := m1.nextRecordId }
    let m2 := { m1 with
      components := m1.components ++ [(componentKey, componentState)]
      nextRecordId := m1.nextRecordId + 1
      intersectionObservers := m1.intersectionObservers ++ [componentKey] }
    let m3 :=
      if el.hasParentElement then
        { m2 with mutationObservers := m2.mutationObservers ++ [componentKey] }
      else m2
    (m3, prior.2, Teardown.unregisterKey componentKey)

/-- Running a teardown closure returned by `registerComponent` (the pointer
handler removal is host-side only; the manager effect is `unregisterComponent`). -/
def runTeardown (m : ComponentFocusManager) : Teardown → ComponentFocusManager × List FocusEvent
  | Teardown.noop => (m, [])
  | Teardown.unregisterKey k => unregisterComponent m k

/-- `subscribeToComponent(componentKey, listener)`. -/
def subscribeToComponent (m : ComponentFocusManager) (componentKey : ComponentKey)
    (listenerId : ListenerId) :
    ComponentFocusManager × List FocusEvent × Unsubscribe :=
  match findEntry m.components componentKey with
  | none =>
    (m, [FocusEvent.warn ("Component " ++ componentKey ++ " is not registered")],
     Unsubscribe.noop)
  | some component =>
    let m' := { m with
      components := updateEntry m.components componentKey
        (fun c => { c with listeners := addListener c.listeners listenerId }) }
    (m', [FocusEvent.notifyListener componentKey listenerId component.focused],
     Unsubscribe.removeFromRecord component.recordId listenerId)

/-- The per-record effect of an unsubscribe closure: `Set.delete` on the
captured record's listener set, other records untouched. -/
def unsubscribeUpdate (rid : Nat) (lid : ListenerId) (c : ComponentFocusState) :
    ComponentFocusState :=
  if c.recordId = rid then { c with listeners := removeListener c.listeners lid } else c

/-- Running an unsubscribe closure: deletes the listener from the listener set
of the record object the closure captured (located here by `recordId`). -/
def runUnsubscribe (m : ComponentFocusManager) : Unsubscribe → ComponentFocusManager
  | Unsubscribe.noop => m
  | Unsubscribe.removeFromRecord rid lid =>
    { m with components := m.components.map (fun p => (p.1, unsubscribeUpdate rid lid p.2)) }

/-- `isComponentFocused(componentKey)`. -/
def isComponentFocused (m : ComponentFocusManager) (componentKey : ComponentKey) : Bool :=
  match findEntry m.components componentKey with
  | some c => c.focused
  | none => false

/-- `isGloballyFocused()`. -/
def isGloballyFocused (m : ComponentFocusManager) : Bool :=
  m.globalFocused

/-- `getRegisteredComponents()`. -/
def getRegisteredComponents (m : ComponentFocusManager) : List ComponentKey :=
  m.components.map Prod.fst

/-- Iterating `setComponentFocus(·, false)` over a list of keys, as both
`notifyAllComponents` and `blurAllComponents` do via `Map.forEach`. -/
def blurKeys (m : ComponentFocusManager) : List ComponentKey → ComponentFocusManager × List FocusEvent
  | [] => (m, [])
  | k :: ks =>
    let step := setComponentFocus m k false
    let rest := blurKeys step.1 ks
    (rest.1, step.2 ++ rest.2)

/-- `private notifyAllComponents()`: early-returns while globally focused,
otherwise blurs every registered key. -/
def notifyAllComponents (m : ComponentFocusManager) : ComponentFocusManager × List FocusEvent :=
  if m.globalFocused then (m, [])
  else blurKeys m (getRegisteredComponents m)

/-- `blurAllComponents()`. -/
def blurAllComponents (m : ComponentFocusManager) : ComponentFocusManager × List FocusEvent :=
  blurKeys m (getRegisteredComponents m)

/-- The `visibilitychange` handler installed by `setupGlobalFocusListener`:
sets the global flag to the host-reported visibility. -/
def handleVisibilityChange (m : ComponentFocusManager) (visible : Bool) :
    ComponentFocusManager × List FocusEvent :=
  notifyAllComponents { m with globalFocused := visible }

/-- The `window focus` handler: forces the global flag to `true`. -/
def handleWindowFocus (m : ComponentFocusManager) : ComponentFocusManager × List FocusEvent :=
  notifyAllComponents { m with globalFocused := true }

/-- The `window blur` handler: forces the global flag to `false`. -/
def handleWindowBlur (m : ComponentFocusManager) : ComponentFocusManager × List FocusEvent :=
  notifyAllComponents { m with globalFocused := false }

/-- `focusComponent(componentKey)`. -/
def focusComponent (m : ComponentFocusManager) (componentKey : ComponentKey) :
    ComponentFocusManager × List FocusEvent :=
  setComponentFocus m componentKey true

/-- `blurComponent(componentKey)`. -/
def blurComponent (m : ComponentFocusManager) (componentKey : ComponentKey) :
    ComponentFocusManager × List FocusEvent :=
  setComponentFocus m componentKey false

/-- `updateComponentQueryClient(componentKey, queryClient)`. -/
def updateComponentQueryClient (m : ComponentFocusManager) (componentKey : ComponentKey)
    (queryClient : QueryClientId) : ComponentFocusManager :=
  match findEntry m.components componentKey with
  | none => m
  | some _ =>
    { m with
      components := updateEntry m.components componentKey
        (fun c => { c with queryClient := some queryClient }) }

/-- `updateComponentOptions(componentKey, options)`: shallow-merges into the
stored options. -/
def updateComponentOptions (m : ComponentFocusManager) (componentKey : ComponentKey)
    (options : ComponentFocusManagerOptions) : ComponentFocusManager :=
  match findEntry m.components componentKey with
  | none => m
  | some _ =>
    { m with
      components := updateEntry m.components componentKey
        (fun c => { c with options := some (mergeOptions (c.options.getD {}) options) }) }

/-- Iterated `unregisterComponent`, as `destroy()` does via `Map.forEach`. -/
def unregisterKeys (m : ComponentFocusManager) :
    List ComponentKey → ComponentFocusManager × List FocusEvent
  | [] => (m, [])
  | k :: ks =>
    let step := unregisterComponent m k
    let rest := unregisterKeys step.1 ks
    (rest.1, step.2 ++ rest.2)

/-- `destroy()` (the host-listener cleanup is host-side only). -/
def destroy (m : ComponentFocusManager) : ComponentFocusManager × List FocusEvent :=
  unregisterKeys m (getRegisteredComponents m)

/-- `new ComponentFocusManager(options)` / `createComponentFocusManager`. -/
def createComponentFocusManager (options : ComponentFocusManagerOptions) :
    ComponentFocusManager where
  components := []
  globalFocused := true
  intersectionObservers := []
  mutationObservers := []
  options := mergeOptions defaultManagerOptions options
  nextRecordId := 0

/-- One call into the manager's public API, as fired by hooks, observer
callbacks or host events. -/
inductive FocusOp where
  | register (key : ComponentKey) (element : Option DomElement)
      (queryClient : Option QueryClientId) (options : Option ComponentFocusManagerOptions)
  | unregister (key : ComponentKey)
  | setFocus (key : ComponentKey) (focused : Bool)
  | focus (key : ComponentKey)
  | blur (key : ComponentKey)
  | blurAll
  | subscribe (key : ComponentKey) (listenerId : ListenerId)
  | unsubscribe (u : Unsubscribe)
  | runTear (t : Teardown)
  | windowFocus
  | windowBlur
  | visibilityChange (visible : Bool)
  | updateQueryClient (key : ComponentKey) (queryClient : QueryClientId)
  | updateOptions (key : ComponentKey) (options : ComponentFocusManagerOptions)
  | destroyAll
deriving DecidableEq

/-- Executing one public-API call. -/
def stepManager (m : ComponentFocusManager) : FocusOp → ComponentFocusManager × List FocusEvent
  | FocusOp.register k el qc opts =>
    let r := registerComponent m k el qc opts
    (r.1, r.2.1)
  | FocusOp.unregister k => unregisterComponent m k
  | FocusOp.setFocus k v => setComponentFocus m k v
  | FocusOp.focus k => focusComponent m k
  | FocusOp.blur k => blurComponent m k
  | FocusOp.blurAll => blurAllComponents m
  | FocusOp.subscribe k lid =>
    let r := subscribeToComponent m k lid
    (r.1, r.2.1)
  | FocusOp.unsubscribe u => (runUnsubscribe m u, [])
  | FocusOp.runTear t => runTeardown m t
  | FocusOp.windowFocus => handleWindowFocus m
  | FocusOp.windowBlur => handleWindowBlur m
  | FocusOp.visibilityChange visible => handleVisibilityChange m visible
  | FocusOp.updateQueryClient k qc => (updateComponentQueryClient m k qc, [])
  | FocusOp.updateOptions k opts => (updateComponentOptions m k opts, [])
  | FocusOp.destroyAll => destroy m

/-- Concatenation of event batches. -/
def concatEvents : List (List FocusEvent) → List FocusEvent
  | [] => []
  | es :: rest => es ++ concatEvents rest

/-- The events one key contributes to a blur-all sweep: its listeners are
notified with `false` exactly when the record was focused. -/
def blurEventsFor (m : ComponentFocusManager) (k : ComponentKey) : List FocusEvent :=
  match findEntry m.components k with
  | some c =>
    if c.focused then c.listeners.map (fun l => FocusEvent.notifyListener k l false) else []
  | none => []

/-- A fresh default-configured manager. -/
def demoM0 : ComponentFocusManager := createComponentFocusManager {}

/-- `demoM0` after registering key `a` (element with a parent, query client 7). -/
def demoM1 : ComponentFocusManager :=
  (registerComponent demoM0 "a" (some { hasParentElement := true }) (some 7) none).1

/-- `demoM1` after also registering key `b` (no parent element, no client). -/
def demoM2 : ComponentFocusManager :=
  (registerComponent demoM1 "b" (some { hasParentElement := false }) none none).1

/-- `demoM2` after listener `10` subscribes to key `a`. -/
def demoM3 : ComponentFocusManager :=
  (subscribeToComponent demoM2 "a" 10).1

/-- `demoM3` after key `a` gains focus. -/
def demoM4 : ComponentFocusManager :=
  (setComponentFocus demoM3 "a" true).1

/-- Per-registration options disabling all three refresh flags. -/
def allFlagsOff : ComponentFocusManagerOptions where
  refetchOnFocus := some false
  invalidateOnFocus := some false
  resetOnFocus := some false

/-- A default-configured manager whose key `a` is registered with query
client 7 but with every refresh flag disabled per-registration. -/
def cexAllOffManager : ComponentFocusManager :=
  (registerComponent demoM0 "a" (some { hasParentElement := true }) (some 7)
    (some allFlagsOff)).1

/-- The record stored for `a` in `demoM3`. -/
def demoRecordA : ComponentFocusState where
  focused := false
  queryClient := some 7
  listeners := [10]
  options := none
  recordId := 0

/-- The record stored for `a` in `demoM1` and `demoM2`. -/
def demoRecordA0 : ComponentFocusState where
  focused := false
  queryClient := some 7
  listeners := []
  options := none
  recordId := 0

/-- The dispatch events a focus-gain emits for a record (empty without a
query client, and otherwise the policy's at-most-one action). -/
def dispatchEventsFor (managerOptions : ComponentFocusManagerOptions)
    (c : ComponentFocusState) : List FocusEvent :=
  match c.queryClient with
  | some qc => (handleComponentFocus managerOptions c.options).toList.map (FocusEvent.cacheDispatch qc)
  | none => []

/-- The merged configuration a focus-gain dispatch evaluates: per-registration
options shallow-merged over the manager options. -/
def mergedFocusOptions (managerOptions : ComponentFocusManagerOptions)
    (componentOptions : Option ComponentFocusManagerOptions) : ComponentFocusManagerOptions :=
  mergeOptions managerOptions (componentOptions.getD {})

/-- The spec's priority dispatch, stated as a predicate relating a merged
configuration to the chosen action: the first matching flag wins (reset, then
invalidate with breadth determined by `forceRefetch`, then refetch of active
entries), and no action is chosen when no flag is set. -/
def PolicyFirstMatch (o : ComponentFocusManagerOptions) (result : Option CacheAction) : Prop :=
  (o.resetOnFocus.getD false = true →
    result = some (CacheAction.resetQueries o.queryFilters))
  ∧ (o.resetOnFocus.getD false = false → o.invalidateOnFocus.getD false = true →
    result = some (CacheAction.invalidateQueries o.queryFilters
      (if o.forceRefetch.getD false then RefetchType.all else RefetchType.active)))
  ∧ (o.resetOnFocus.getD false = false → o.invalidateOnFocus.getD false = false →
      o.refetchOnFocus.getD false = true →
    result = some (CacheAction.refetchQueries o.queryFilters RefetchType.active))
  ∧ (o.resetOnFocus.getD false = false → o.invalidateOnFocus.getD false = false →
      o.refetchOnFocus.getD false = false → result = none)

/-! ### Association-list and key-set lemmas -/

theorem updateEntry_cons (a : ComponentKey) (c : ComponentFocusState)
    (rest : List (ComponentKey × ComponentFocusState)) (k : ComponentKey)
    (f : ComponentFocusState → ComponentFocusState) :
    updateEntry ((a, c) :: rest) k f =
      (if a = k then (a, f c) else (a, c)) :: updateEntry rest k f := by
  by_cases hak : a = k <;> simp [updateEntry, hak]

theorem findEntry_cons (a : ComponentKey) (c : ComponentFocusState)
    (rest : List (ComponentKey × ComponentFocusState)) (k : ComponentKey) :
    findEntry ((a, c) :: rest) k = if a = k then some c else findEntry rest k := rfl

theorem findEntry_updateEntry (l : List (ComponentKey × ComponentFocusState))
    (k k' : ComponentKey) (f : ComponentFocusState → ComponentFocusState) :
    findEntry (updateEntry l k f) k' =
      if k' = k then (findEntry l k).map f else findEntry l k' := by
  induction l with
  | nil => simp [findEntry, updateEntry]
  | cons p rest ih =>
    obtain ⟨a, c⟩ := p
    rw [updateEntry_cons]
    by_cases hak : a = k
    · subst hak
      rw [if_pos rfl]
      simp only [findEntry_cons, ih]
      by_cases hak' : a = k'
      · subst hak'
        simp
      · simp [hak', Ne.symm hak']
    · rw [if_neg hak]
      simp only [findEntry_cons, ih]
      by_cases hak' : a = k'
      · subst hak'
        simp [hak, fun h : a = k => hak h]
      · simp [hak, hak']

theorem findEntry_eraseEntry (l : List (ComponentKey × ComponentFocusState))
    (k k' : ComponentKey) :
    findEntry (eraseEntry l k) k' = if k' = k then none else findEntry l k' := by
  induction l with
  | nil => simp [findEntry, eraseEntry]
  | cons p rest ih =>
    obtain ⟨a, c⟩ := p
    by_cases hak : a = k <;> by_cases hak' : a = k' <;>
      simp [findEntry, eraseEntry, hak, hak'] at ih ⊢ <;>
      simp_all [findEntry, eq_comm]

theorem findEntry_append_of_none (l1 l2 : List (ComponentKey × ComponentFocusState))
    (k : ComponentKey) (h : findEntry l1 k = none) :
    findEntry (l1 ++ l2) k = findEntry l2 k := by
  induction l1 with
  | nil => simp
  | cons p rest ih =>
    obtain ⟨a, c⟩ := p
    by_cases hak : a = k <;> simp_all [findEntry]

theorem findEntry_map_value (l : List (ComponentKey × ComponentFocusState))
    (g : ComponentFocusState → ComponentFocusState) (k : ComponentKey) :
    findEntry (l.map (fun p => (p.1, g p.2))) k = (findEntry l k).map g := by
  induction l with
  | nil => simp [findEntry]
  | cons p rest ih =>
    obtain ⟨a, c⟩ := p
    by_cases hak : a = k <;> simp_all [findEntry]

theorem keys_updateEntry (l : List (ComponentKey × ComponentFocusState))
    (k : ComponentKey) (f : ComponentFocusState → ComponentFocusState) :
    (updateEntry l k f).map Prod.fst = l.map Prod.fst := by
  induction l with
  | nil => rfl
  | cons p rest ih =>
    by_cases hak : p.1 = k <;> simp_all [updateEntry]

theorem keys_map_value (l : List (ComponentKey × ComponentFocusState))
    (g : ComponentFocusState → ComponentFocusState) :
    (l.map (fun p => (p.1, g p.2))).map Prod.fst = l.map Prod.fst := by
  induction l with
  | nil => rfl
  | cons p rest ih => simp_all

theorem mem_removeKey (l : List ComponentKey) (k a : ComponentKey) :
    a ∈ removeKey l k ↔ a ∈ l ∧ a ≠ k := by
  induction l with
  | nil => simp [removeKey]
  | cons b rest ih =>
    by_cases hbk : b = k <;> by_cases hab : a = b <;>
      simp_all [removeKey]

theorem removeKey_of_not_mem (l : List ComponentKey) (k : ComponentKey) (h : k ∉ l) :
    removeKey l k = l := by
  induction l with
  | nil => rfl
  | cons b rest ih => simp_all [removeKey, Ne.symm]

theorem nodup_removeKey (l : List ComponentKey) (k : ComponentKey) (h : l.Nodup) :
    (removeKey l k).Nodup := by
  induction l with
  | nil => simp [removeKey]
  | cons b rest ih =>
    simp only [List.nodup_cons] at h
    by_cases hbk : b = k <;> simp_all [removeKey, List.nodup_cons, mem_removeKey]

theorem keys_eraseEntry (l : List (ComponentKey × ComponentFocusState))
    (k : ComponentKey) :
    (eraseEntry l k).map Prod.fst = removeKey (l.map Prod.fst) k := by
  induction l with
  | nil => rfl
  | cons p rest ih =>
    by_cases hak : p.1 = k <;> simp_all [eraseEntry, removeKey]

theorem findEntry_eq_none_of_not_mem (l : List (ComponentKey × ComponentFocusState))
    (k : ComponentKey) (h : k ∉ l.map Prod.fst) : findEntry l k = none := by
  induction l with
  | nil => rfl
  | cons p rest ih => simp_all [findEntry, Ne.symm]

theorem mem_keys_of_findEntry (l : List (ComponentKey × ComponentFocusState))
    (k : ComponentKey) (c : ComponentFocusState) (h : findEntry l k = some c) :
    k ∈ l.map Prod.fst := by
  induction l with
  | nil => simp [findEntry] at h
  | cons p rest ih =>
    by_cases hak : p.1 = k <;> simp_all [findEntry]

theorem eraseEntry_of_not_mem (l : List (ComponentKey × ComponentFocusState))
    (k : ComponentKey) (h : k ∉ l.map Prod.fst) : eraseEntry l k = l := by
  induction l with
  | nil => rfl
  | cons p rest ih => simp_all [eraseEntry, Ne.symm]

theorem mem_removeListener (l : List ListenerId) (x a : ListenerId) :
    a ∈ removeListener l x ↔ a ∈ l ∧ a ≠ x := by
  induction l with
  | nil => simp [removeListener]
  | cons b rest ih =>
    by_cases hbx : b = x <;> by_cases hab : a = b <;>
      simp_all [removeListener]

theorem removeListener_idem (l : List ListenerId) (x : ListenerId) :
    removeListener (removeListener l x) x = removeListener l x := by
  induction l with
  | nil => rfl
  | cons b rest ih =>
    by_cases hbx : b = x <;> simp_all [removeListener]

/-! ### `setComponentFocus` lemmas -/

theorem setComponentFocus_of_not_found (m : ComponentFocusManager) (k : ComponentKey)
    (v : Bool) (h : findEntry m.components k = none) :
    setComponentFocus m k v = (m, []) := by
  simp [setComponentFocus, h]

theorem setComponentFocus_fst (m : ComponentFocusManager) (k : ComponentKey)
    (v : Bool) (c : ComponentFocusState) (h : findEntry m.components k = some c) :
    (setComponentFocus m k v).1 =
      { m with components := updateEntry m.components k (fun c' => { c' with focused := v }) } := by
  by_cases hfv : c.focused = v <;> simp [setComponentFocus, h, hfv]

theorem setComponentFocus_events (m : ComponentFocusManager) (k : ComponentKey)
    (v : Bool) (c : ComponentFocusState) (h : findEntry m.components k = some c) :
    (setComponentFocus m k v).2 =
      if c.focused = v then []
      else
        c.listeners.map (fun l => FocusEvent.notifyListener k l v)
          ++ (if v then dispatchEventsFor m.options c else []) := by
  by_cases hfv : c.focused = v <;> simp [setComponentFocus, h, hfv, dispatchEventsFor]

theorem setComponentFocus_findEntry (m : ComponentFocusManager) (k : ComponentKey)
    (v : Bool) (k' : ComponentKey) :
    findEntry (setComponentFocus m k v).1.components k' =
      if k' = k then (findEntry m.components k').map (fun c => { c with focused := v })
      else findEntry m.components k' := by
  cases hm : findEntry m.components k with
  | none =>
    rw [setComponentFocus_of_not_found m k v hm]
    by_cases hk : k' = k
    · subst hk
      simp [hm]
    · simp [hk]
  | some c =>
    rw [setComponentFocus_fst m k v c hm]
    by_cases hk : k' = k
    · subst hk
      simp [findEntry_updateEntry, hm]
    · simp [findEntry_updateEntry, hk]

theorem setComponentFocus_keys (m : ComponentFocusManager) (k : ComponentKey) (v : Bool) :
    (setComponentFocus m k v).1.components.map Prod.fst = m.components.map Prod.fst := by
  cases hm : findEntry m.components k with
  | none => rw [setComponentFocus_of_not_found m k v hm]
  | some c =>
    rw [setComponentFocus_fst m k v c hm]
    exact keys_updateEntry m.components k (fun c' => { c' with focused := v })

theorem setComponentFocus_globalFocused (m : ComponentFocusManager) (k : ComponentKey)
    (v : Bool) : (setComponentFocus m k v).1.globalFocused = m.globalFocused := by
  cases hm : findEntry m.components k with
  | none => rw [setComponentFocus_of_not_found m k v hm]
  | some c => rw [setComponentFocus_fst m k v c hm]

theorem setComponentFocus_options (m : ComponentFocusManager) (k : ComponentKey)
    (v : Bool) : (setComponentFocus m k v).1.options = m.options := by
  cases hm : findEntry m.components k with
  | none => rw [setComponentFocus_of_not_found m k v hm]
  | some c => rw [setComponentFocus_fst m k v c hm]

theorem dispatch_only_in_dispatchEventsFor (o : ComponentFocusManagerOptions)
    (c : ComponentFocusState) (e : FocusEvent) (h : e ∈ dispatchEventsFor o c) :
    isCacheDispatch e = true := by
  unfold dispatchEventsFor at h
  cases hq : c.queryClient with
  | none =>
    rw [hq] at h
    simp at h
  | some qc =>
    rw [hq] at h
    simp only [List.mem_map] at h
    obtain ⟨a, _, rfl⟩ := h
    rfl

theorem setComponentFocus_false_no_dispatch (m : ComponentFocusManager) (k : ComponentKey) :
    ((setComponentFocus m k false).2).filter isCacheDispatch = [] := by
  cases hm : findEntry m.components k with
  | none =>
    rw [setComponentFocus_of_not_found m k false hm]
    rfl
  | some c =>
    rw [setComponentFocus_events m k false c hm]
    by_cases hf : c.focused = false
    · simp [hf]
    · rw [if_neg hf, List.filter_eq_nil_iff]
      intro e he
      simp only [Bool.false_eq_true, if_false, List.append_nil, List.mem_map] at he
      obtain ⟨l, _, rfl⟩ := he
      simp [isCacheDispatch]

theorem notify_mem_setComponentFocus (m : ComponentFocusManager) (k : ComponentKey)
    (v : Bool) (k' : ComponentKey) (lid : ListenerId) (b : Bool)
    (h : FocusEvent.notifyListener k' lid b ∈ (setComponentFocus m k v).2) :
    k' = k ∧ b = v ∧ ∃ c, findEntry m.components k = some c ∧ c.focused ≠ v ∧ lid ∈ c.listeners := by
  cases hm : findEntry m.components k with
  | none =>
    rw [setComponentFocus_of_not_found m k v hm] at h
    simp at h
  | some c =>
    rw [setComponentFocus_events m k v c hm] at h
    by_cases hfv : c.focused = v
    · simp [hfv] at h
    · rw [if_neg hfv, List.mem_append] at h
      rcases h with h | h
      · rw [List.mem_map] at h
        obtain ⟨l, hl, heq⟩ := h
        cases heq
        exact ⟨rfl, rfl, c, rfl, hfv, hl⟩
      · exfalso
        cases v with
        | false => simp at h
        | true =>
          rw [if_pos rfl] at h
          have := dispatch_only_in_dispatchEventsFor m.options c _ h
          simp [isCacheDispatch] at this

/-! ### `blurKeys` lemmas -/

theorem blurKeys_globalFocused (ks : List ComponentKey) (m : ComponentFocusManager) :
    (blurKeys m ks).1.globalFocused = m.globalFocused := by
  induction ks generalizing m with
  | nil => rfl
  | cons k ks ih =>
    rw [blurKeys]
    rw [ih]
    exact setComponentFocus_globalFocused m k false

theorem blurKeys_keys (ks : List ComponentKey) (m : ComponentFocusManager) :
    (blurKeys m ks).1.components.map Prod.fst = m.components.map Prod.fst := by
  induction ks generalizing m with
  | nil => rfl
  | cons k ks ih =>
    rw [blurKeys]
    rw [ih]
    exact setComponentFocus_keys m k false

theorem blurKeys_findEntry (ks : List ComponentKey) (m : ComponentFocusManager)
    (k' : ComponentKey) :
    findEntry (blurKeys m ks).1.components k' =
      if k' ∈ ks then (findEntry m.components k').map (fun c => { c with focused := false })
      else findEntry m.components k' := by
  induction ks generalizing m with
  | nil => simp [blurKeys]
  | cons k ks ih =>
    rw [blurKeys]
    rw [ih, setComponentFocus_findEntry]
    by_cases hmem : k' ∈ ks
    · by_cases hk : k' = k <;>
        cases hc : findEntry m.components k' <;>
        simp [hmem, hk, hc, List.mem_cons]
    · by_cases hk : k' = k
      · subst hk
        cases hc : findEntry m.components k' <;> simp [hmem, hc]
      · simp [hmem, hk, List.mem_cons]

theorem blurKeys_events (ks : List ComponentKey) (m : ComponentFocusManager)
    (hks : ks.Nodup) :
    (blurKeys m ks).2 = concatEvents (ks.map (blurEventsFor m)) := by
  induction ks generalizing m with
  | nil => rfl
  | cons k ks ih =>
    rw [blurKeys]
    simp only [List.nodup_cons] at hks
    rw [List.map_cons, concatEvents, ih _ hks.2]
    have hhead : (setComponentFocus m k false).2 = blurEventsFor m k := by
      cases hm : findEntry m.components k with
      | none => rw [setComponentFocus_of_not_found m k false hm, blurEventsFor, hm]
      | some c =>
        rw [setComponentFocus_events m k false c hm, blurEventsFor, hm]
        by_cases hf : c.focused = false
        · simp [hf]
        · have hf' : c.focused = true := by
            cases hcf : c.focused
            · exact absurd hcf hf
            · rfl
          simp [hf, hf']
    rw [hhead]
    have htail : ks.map (blurEventsFor (setComponentFocus m k false).1)
        = ks.map (blurEventsFor m) := by
      apply List.map_congr_left
      intro a ha
      have hak : a ≠ k := fun h => hks.1 (h ▸ ha)
      rw [blurEventsFor, blurEventsFor, setComponentFocus_findEntry, if_neg hak]
    rw [htail]

theorem notify_mem_blurKeys (ks : List ComponentKey) (m : ComponentFocusManager)
    (k : ComponentKey) (lid : ListenerId) (b : Bool)
    (h : FocusEvent.notifyListener k lid b ∈ (blurKeys m ks).2) :
    b = false ∧ ∃ c, findEntry m.components k = some c ∧ c.focused = true ∧ lid ∈ c.listeners := by
  induction ks generalizing m with
  | nil => simp [blurKeys] at h
  | cons k0 ks ih =>
    rw [blurKeys] at h
    rw [List.mem_append] at h
    rcases h with h | h
    · obtain ⟨hk, hb, c, hc, hf, hl⟩ := notify_mem_setComponentFocus m k0 false k lid b h
      subst hk
      refine ⟨hb, c, hc, ?_, hl⟩
      cases hcf : c.focused
      · exact absurd hcf hf
      · rfl
    · obtain ⟨hb, c, hc, hf, hl⟩ := ih _ h
      rw [setComponentFocus_findEntry] at hc
      by_cases hk : k = k0
      · rw [if_pos hk] at hc
        cases hm : findEntry m.components k0 with
        | none =>
          rw [hk, hm] at hc
          simp at hc
        | some c0 =>
          rw [hk, hm] at hc
          have hc2 : ({ c0 with focused := false } : ComponentFocusState) = c :=
            Option.some.inj hc
          rw [← hc2] at hf
          simp at hf
      · rw [if_neg hk] at hc
        exact ⟨hb, c, hc, hf, hl⟩

/-! ### `unregisterComponent` and `registerComponent` lemmas -/

theorem unregisterComponent_findEntry (m : ComponentFocusManager) (k k' : ComponentKey) :
    findEntry (unregisterComponent m k).1.components k' =
      if k' = k then none else findEntry m.components k' := by
  rw [unregisterComponent]
  exact findEntry_eraseEntry m.components k k'

theorem unregisterComponent_keys (m : ComponentFocusManager) (k : ComponentKey) :
    (unregisterComponent m k).1.components.map Prod.fst
      = removeKey (m.components.map Prod.fst) k := by
  rw [unregisterComponent]
  exact keys_eraseEntry m.components k

theorem unregisterComponent_no_notify (m : ComponentFocusManager) (k : ComponentKey) :
    ∀ e ∈ (unregisterComponent m k).2, isNotifyEvent e = false := by
  intro e he
  rw [unregisterComponent] at he
  rw [List.mem_append] at he
  rcases he with he | he <;> split at he <;> simp_all [isNotifyEvent]

theorem findEntry_ne_none_of_mem_keys (l : List (ComponentKey × ComponentFocusState))
    (k : ComponentKey) (h : k ∈ l.map Prod.fst) : findEntry l k ≠ none := by
  induction l with
  | nil => cases h
  | cons q rest ih =>
    rw [List.map_cons, List.mem_cons] at h
    rw [findEntry_cons]
    rcases h with h | h
    · simp [h]
    · by_cases hq : q.1 = k
      · simp [hq]
      · simpa [hq] using ih h

theorem unregisterComponent_of_absent (m : ComponentFocusManager) (k : ComponentKey)
    (h1 : findEntry m.components k = none) (h2 : k ∉ m.intersectionObservers)
    (h3 : k ∉ m.mutationObservers) :
    unregisterComponent m k = (m, []) := by
  have hkeys : k ∉ m.components.map Prod.fst := by
    intro hmem
    exact findEntry_ne_none_of_mem_keys m.components k hmem h1
  rw [unregisterComponent, eraseEntry_of_not_mem m.components k hkeys,
    removeKey_of_not_mem _ _ h2, removeKey_of_not_mem _ _ h3,
    if_neg h2, if_neg h3]
  rfl

theorem registerComponent_events (m : ComponentFocusManager) (k : ComponentKey)
    (el : DomElement) (qc : Option QueryClientId) (opts : Option ComponentFocusManagerOptions) :
    (registerComponent m k (some el) qc opts).2.1 = (unregisterComponent m k).2 := rfl

theorem registerComponent_teardown (m : ComponentFocusManager) (k : ComponentKey)
    (el : DomElement) (qc : Option QueryClientId) (opts : Option ComponentFocusManagerOptions) :
    (registerComponent m k (some el) qc opts).2.2 = Teardown.unregisterKey k := rfl

theorem registerComponent_components (m : ComponentFocusManager) (k : ComponentKey)
    (el : DomElement) (qc : Option QueryClientId) (opts : Option ComponentFocusManagerOptions) :
    (registerComponent m k (some el) qc opts).1.components
      = eraseEntry m.components k
        ++ [(k, { focused := false, queryClient := qc, listeners := [], options := opts,
                  recordId := m.nextRecordId })] := by
  rw [registerComponent]
  by_cases hp : el.hasParentElement <;> simp [hp, unregisterComponent]

theorem registerComponent_intersection (m : ComponentFocusManager) (k : ComponentKey)
    (el : DomElement) (qc : Option QueryClientId) (opts : Option ComponentFocusManagerOptions) :
    (registerComponent m k (some el) qc opts).1.intersectionObservers
      = removeKey m.intersectionObservers k ++ [k] := by
  rw [registerComponent]
  by_cases hp : el.hasParentElement <;> simp [hp, unregisterComponent]

theorem registerComponent_findEntry_self (m : ComponentFocusManager) (k : ComponentKey)
    (el : DomElement) (qc : Option QueryClientId) (opts : Option ComponentFocusManagerOptions) :
    findEntry (registerComponent m k (some el) qc opts).1.components k
      = some { focused := false, queryClient := qc, listeners := [], options := opts,
               recordId := m.nextRecordId } := by
  rw [registerComponent_components]
  rw [findEntry_append_of_none]
  · rw [findEntry_cons, if_pos rfl]
  · rw [findEntry_eraseEntry, if_pos rfl]

theorem registerComponent_keys (m : ComponentFocusManager) (k : ComponentKey)
    (el : DomElement) (qc : Option QueryClientId) (opts : Option ComponentFocusManagerOptions) :
    (registerComponent m k (some el) qc opts).1.components.map Prod.fst
      = removeKey (m.components.map Prod.fst) k ++ [k] := by
  rw [registerComponent_components, List.map_append, keys_eraseEntry]
  rfl

theorem unregister_idem (m : ComponentFocusManager) (k : ComponentKey) :
    unregisterComponent (unregisterComponent m k).1 k = ((unregisterComponent m k).1, []) := by
  apply unregisterComponent_of_absent
  · rw [unregisterComponent_findEntry, if_pos rfl]
  · rw [unregisterComponent]
    intro hmem
    exact ((mem_removeKey _ _ _).mp hmem).2 rfl
  · rw [unregisterComponent]
    intro hmem
    exact ((mem_removeKey _ _ _).mp hmem).2 rfl

/-! ### `subscribeToComponent` and unsubscribe lemmas -/

theorem subscribeToComponent_of_not_found (m : ComponentFocusManager) (k : ComponentKey)
    (lid : ListenerId) (h : findEntry m.components k = none) :
    subscribeToComponent m k lid =
      (m, [FocusEvent.warn ("Component " ++ k ++ " is not registered")], Unsubscribe.noop) := by
  simp [subscribeToComponent, h]

theorem subscribeToComponent_found (m : ComponentFocusManager) (k : ComponentKey)
    (lid : ListenerId) (c : ComponentFocusState) (h : findEntry m.components k = some c) :
    subscribeToComponent m k lid =
      ({ m with
          components := updateEntry m.components k
            (fun c' => { c' with listeners := addListener c'.listeners lid }) },
       [FocusEvent.notifyListener k lid c.focused],
       Unsubscribe.removeFromRecord c.recordId lid) := by
  simp [subscribeToComponent, h]

theorem runUnsubscribe_findEntry (m : ComponentFocusManager) (rid : Nat)
    (lid : ListenerId) (k' : ComponentKey) :
    findEntry (runUnsubscribe m (Unsubscribe.removeFromRecord rid lid)).components k' =
      (findEntry m.components k').map (unsubscribeUpdate rid lid) := by
  simp only [runUnsubscribe]
  exact findEntry_map_value m.components (unsubscribeUpdate rid lid) k'

theorem unsubscribeUpdate_idem (rid : Nat) (lid : ListenerId) (c : ComponentFocusState) :
    unsubscribeUpdate rid lid (unsubscribeUpdate rid lid c) = unsubscribeUpdate rid lid c := by
  by_cases hr : c.recordId = rid
  · simp [unsubscribeUpdate, hr, removeListener_idem]
  · simp [unsubscribeUpdate, hr]

theorem runUnsubscribe_idem (m : ComponentFocusManager) (u : Unsubscribe) :
    runUnsubscribe (runUnsubscribe m u) u = runUnsubscribe m u := by
  cases u with
  | noop => rfl
  | removeFromRecord rid lid =>
    simp only [runUnsubscribe]
    congr 1
    rw [List.map_map]
    apply List.map_congr_left
    intro p _
    simp only [Function.comp]
    rw [unsubscribeUpdate_idem]

theorem runUnsubscribe_keys (m : ComponentFocusManager) (u : Unsubscribe) :
    (runUnsubscribe m u).components.map Prod.fst = m.components.map Prod.fst := by
  cases u with
  | noop => rfl
  | removeFromRecord rid lid =>
    simp only [runUnsubscribe]
    exact keys_map_value m.components (unsubscribeUpdate rid lid)

/-! ### `unregisterKeys` lemmas -/

theorem unregisterKeys_no_notify (ks : List ComponentKey) (m : ComponentFocusManager) :
    ∀ e ∈ (unregisterKeys m ks).2, isNotifyEvent e = false := by
  induction ks generalizing m with
  | nil => intro e he; cases he
  | cons k ks ih =>
    intro e he
    rw [unregisterKeys, List.mem_append] at he
    rcases he with he | he
    · exact unregisterComponent_no_notify m k e he
    · exact ih _ e he

theorem unregisterKeys_nodup (ks : List ComponentKey) (m : ComponentFocusManager)
    (h : (m.components.map Prod.fst).Nodup) :
    ((unregisterKeys m ks).1.components.map Prod.fst).Nodup := by
  induction ks generalizing m with
  | nil => exact h
  | cons k ks ih =>
    rw [unregisterKeys]
    apply ih
    rw [unregisterComponent_keys]
    exact nodup_removeKey _ _ h

theorem stepManager_preserves_nodup (m : ComponentFocusManager) (op : FocusOp)
    (h : (m.components.map Prod.fst).Nodup) :
    ((stepManager m op).1.components.map Prod.fst).Nodup := by
  cases op with
  | register k el qc opts =>
    cases el with
    | none => exact h
    | some el =>
      show (((registerComponent m k (some el) qc opts).1.components.map Prod.fst)).Nodup
      rw [registerComponent_keys, List.nodup_append]
      refine ⟨nodup_removeKey _ _ h, List.nodup_singleton k, ?_⟩
      rw [List.disjoint_singleton]
      intro hmem
      exact ((mem_removeKey _ _ _).mp hmem).2 rfl
  | unregister k =>
    show (((unregisterComponent m k).1.components.map Prod.fst)).Nodup
    rw [unregisterComponent_keys]
    exact nodup_removeKey _ _ h
  | setFocus k v =>
    show (((setComponentFocus m k v).1.components.map Prod.fst)).Nodup
    rw [setComponentFocus_keys]
    exact h
  | focus k =>
    show (((setComponentFocus m k true).1.components.map Prod.fst)).Nodup
    rw [setComponentFocus_keys]
    exact h
  | blur k =>
    show (((setComponentFocus m k false).1.components.map Prod.fst)).Nodup
    rw [setComponentFocus_keys]
    exact h
  | blurAll =>
    show (((blurKeys m (getRegisteredComponents m)).1.components.map Prod.fst)).Nodup
    rw [blurKeys_keys]
    exact h
  | subscribe k lid =>
    show (((subscribeToComponent m k lid).1.components.map Prod.fst)).Nodup
    cases hm : findEntry m.components k with
    | none =>
      rw [subscribeToComponent_of_not_found m k lid hm]
      exact h
    | some c =>
      rw [subscribeToComponent_found m k lid c hm]
      simp only [keys_updateEntry]
      exact h
  | unsubscribe u =>
    show (((runUnsubscribe m u).components.map Prod.fst)).Nodup
    rw [runUnsubscribe_keys]
    exact h
  | runTear t =>
    cases t with
    | noop => exact h
    | unregisterKey k =>
      show (((unregisterComponent m k).1.components.map Prod.fst)).Nodup
      rw [unregisterComponent_keys]
      exact nodup_removeKey _ _ h
  | windowFocus => exact h
  | windowBlur =>
    show (((blurKeys { m with globalFocused := false }
      (getRegisteredComponents { m with globalFocused := false })).1.components.map Prod.fst)).Nodup
    rw [blurKeys_keys]
    exact h
  | visibilityChange visible =>
    cases visible with
    | true => exact h
    | false =>
      show (((blurKeys { m with globalFocused := false }
        (getRegisteredComponents { m with globalFocused := false })).1.components.map Prod.fst)).Nodup
      rw [blurKeys_keys]
      exact h
  | updateQueryClient k qc =>
    show (((updateComponentQueryClient m k qc).components.map Prod.fst)).Nodup
    cases hm : findEntry m.components k with
    | none =>
      rw [updateComponentQueryClient, hm]
      exact h
    | some c =>
      simp only [updateComponentQueryClient, hm, keys_updateEntry]
      exact h
  | updateOptions k opts =>
    show (((updateComponentOptions m k opts).components.map Prod.fst)).Nodup
    cases hm : findEntry m.components k with
    | none =>
      rw [updateComponentOptions, hm]
      exact h
    | some c =>
      simp only [updateComponentOptions, hm, keys_updateEntry]
      exact h
  | destroyAll => exact unregisterKeys_nodup _ _ h

theorem filter_dispatch_notifications (k : ComponentKey) (v : Bool) (ls : List ListenerId) :
    (ls.map (fun l => FocusEvent.notifyListener k l v)).filter isCacheDispatch = [] := by
  rw [List.filter_eq_nil_iff]
  intro e he
  rw [List.mem_map] at he
  obtain ⟨l, _, rfl⟩ := he
  simp [isCacheDispatch]

theorem filter_dispatch_dispatchEventsFor (o : ComponentFocusManagerOptions)
    (c : ComponentFocusState) :
    (dispatchEventsFor o c).filter isCacheDispatch = dispatchEventsFor o c :=
  List.filter_eq_self.mpr (fun e he => dispatch_only_in_dispatchEventsFor o c e he)

/-! ### Claim theorems -/

/-- C1 counterexample: in a default-configured manager, a registration whose
per-registration options disable all three refresh flags still undergoes a
focus-gain dispatch (the key is registered and unfocused, with a query
client), yet zero cache actions fire — not exactly one. -/
theorem focus_gain_zero_actions_cex :
    isComponentFocused cexAllOffManager "a" = false
    ∧ (findEntry cexAllOffManager.components "a").map ComponentFocusState.queryClient
        = some (some 7)
    ∧ ((setComponentFocus cexAllOffManager "a" true).2.filter isCacheDispatch).length = 0 := by
  decide

/-- C1 (amended): every focus-gain dispatch evaluates the refresh policy on
the per-registration options shallow-merged over the manager options (which
the constructor builds from the defaults refetchOnFocus = invalidateOnFocus =
forceRefetch = true, resetOnFocus = false); at most one cache action fires,
the first matching flag winning — reset, else invalidate with breadth all
when forceRefetch and active otherwise, else refetch with scope active, and
no action when all three flags are off; under the default configuration the
dispatched action is invalidate with breadth all. -/
theorem focus_gain_dispatch_policy (m : ComponentFocusManager) (k : ComponentKey)
    (c : ComponentFocusState) (qc : QueryClientId)
    (hfind : findEntry m.components k = some c) (hfoc : c.focused = false)
    (hqc : c.queryClient = some qc) :
    ((setComponentFocus m k true).2.filter isCacheDispatch
        = (handleComponentFocus m.options c.options).toList.map (FocusEvent.cacheDispatch qc))
    ∧ ((setComponentFocus m k true).2.filter isCacheDispatch).length ≤ 1
    ∧ PolicyFirstMatch (mergedFocusOptions m.options c.options)
        (handleComponentFocus m.options c.options)
    ∧ handleComponentFocus (createComponentFocusManager {}).options none
        = some (CacheAction.invalidateQueries none RefetchType.all) := by
  have hne : ¬(c.focused = true) := by rw [hfoc]; simp
  have hevents : (setComponentFocus m k true).2.filter isCacheDispatch
      = (handleComponentFocus m.options c.options).toList.map (FocusEvent.cacheDispatch qc) := by
    rw [setComponentFocus_events m k true c hfind, if_neg hne, if_pos rfl,
      List.filter_append, filter_dispatch_notifications, filter_dispatch_dispatchEventsFor,
      List.nil_append, dispatchEventsFor, hqc]
  refine ⟨hevents, ?_, ?_, rfl⟩
  · rw [hevents, List.length_map]
    cases handleComponentFocus m.options c.options <;> simp [Option.toList]
  · refine ⟨?_, ?_, ?_, ?_⟩
    · intro h1
      simp [handleComponentFocus, mergedFocusOptions] at h1 ⊢
      simp [h1]
    · intro h1 h2
      simp [handleComponentFocus, mergedFocusOptions] at h1 h2 ⊢
      simp [h1, h2]
    · intro h1 h2 h3
      simp [handleComponentFocus, mergedFocusOptions] at h1 h2 h3 ⊢
      simp [h1, h2, h3]
    · intro h1 h2 h3
      simp [handleComponentFocus, mergedFocusOptions] at h1 h2 h3 ⊢
      simp [h1, h2, h3]

/-- C1 witness: the dispatch-policy theorem applied to the default-configured
manager `demoM1`, key `a`, query client `7`. -/
theorem focus_gain_dispatch_policy_witness :
    ((setComponentFocus demoM1 "a" true).2.filter isCacheDispatch
        = (handleComponentFocus demoM1.options demoRecordA0.options).toList.map
            (FocusEvent.cacheDispatch 7))
    ∧ ((setComponentFocus demoM1 "a" true).2.filter isCacheDispatch).length ≤ 1
    ∧ PolicyFirstMatch (mergedFocusOptions demoM1.options demoRecordA0.options)
        (handleComponentFocus demoM1.options demoRecordA0.options)
    ∧ handleComponentFocus (createComponentFocusManager {}).options none
        = some (CacheAction.invalidateQueries none RefetchType.all) :=
  focus_gain_dispatch_policy demoM1 "a" demoRecordA0 7 (by decide) rfl rfl

/-- C2: for a registered key, refresh dispatch fires exactly on stored-state
transitions from false to true — never on focus loss, never on a no-change
set, never without a cache handle — and within one `setComponentFocus` call
all listener notifications precede the dispatch events. -/
theorem refresh_dispatch_on_focus_gain_only (m : ComponentFocusManager)
    (k : ComponentKey) (c : ComponentFocusState) (v : Bool)
    (hfind : findEntry m.components k = some c) :
    ((setComponentFocus m k false).2.filter isCacheDispatch = [])
    ∧ (c.focused = v → (setComponentFocus m k v).2 = [])
    ∧ (c.focused = false → c.queryClient = none →
        (setComponentFocus m k true).2.filter isCacheDispatch = [])
    ∧ (c.focused ≠ v → (setComponentFocus m k v).2
        = c.listeners.map (fun l => FocusEvent.notifyListener k l v)
          ++ (if v then dispatchEventsFor m.options c else []))
    ∧ (∀ e ∈ (setComponentFocus m k v).2, isCacheDispatch e = true →
        c.focused = false ∧ v = true) := by
  refine ⟨setComponentFocus_false_no_dispatch m k, ?_, ?_, ?_, ?_⟩
  · intro hfv
    rw [setComponentFocus_events m k v c hfind, if_pos hfv]
  · intro hfoc hqc
    have hne : ¬(c.focused = true) := by rw [hfoc]; simp
    rw [setComponentFocus_events m k true c hfind, if_neg hne, if_pos rfl,
      List.filter_append, filter_dispatch_notifications, List.nil_append,
      filter_dispatch_dispatchEventsFor, dispatchEventsFor, hqc]
  · intro hfv
    rw [setComponentFocus_events m k v c hfind, if_neg hfv]
  · intro e he hdisp
    by_cases hfv : c.focused = v
    · rw [setComponentFocus_events m k v c hfind, if_pos hfv] at he
      cases he
    · rw [setComponentFocus_events m k v c hfind, if_neg hfv, List.mem_append] at he
      rcases he with he | he
      · rw [List.mem_map] at he
        obtain ⟨l, _, rfl⟩ := he
        simp [isCacheDispatch] at hdisp
      · cases v with
        | false => cases he
        | true =>
          refine ⟨?_, rfl⟩
          cases hc2 : c.focused
          · rfl
          · exact absurd hc2 hfv

/-- C2 witness: the focus-gain-only dispatch theorem applied to `demoM3`,
key `a`, its stored record, and the value `true`. -/
theorem refresh_dispatch_on_focus_gain_only_witness :
    ((setComponentFocus demoM3 "a" false).2.filter isCacheDispatch = [])
    ∧ (demoRecordA.focused = true → (setComponentFocus demoM3 "a" true).2 = [])
    ∧ (demoRecordA.focused = false → demoRecordA.queryClient = none →
        (setComponentFocus demoM3 "a" true).2.filter isCacheDispatch = [])
    ∧ (demoRecordA.focused ≠ true → (setComponentFocus demoM3 "a" true).2
        = demoRecordA.listeners.map (fun l => FocusEvent.notifyListener "a" l true)
          ++ (if true then dispatchEventsFor demoM3.options demoRecordA else []))
    ∧ (∀ e ∈ (setComponentFocus demoM3 "a" true).2, isCacheDispatch e = true →
        demoRecordA.focused = false ∧ true = true) :=
  refresh_dispatch_on_focus_gain_only demoM3 "a" demoRecordA true (by decide)

/-- C3: flipping the global visibility signal to false forces every focused
record to false and notifies its listeners, while flipping it to true changes
no record — window blur forces the signal false, window focus forces it true,
and visibility change sets the host-reported value. -/
theorem global_visibility_blur (m : ComponentFocusManager)
    (hnd : (m.components.map Prod.fst).Nodup) :
    ((handleWindowBlur m).1.globalFocused = false)
    ∧ (∀ k, isComponentFocused (handleWindowBlur m).1 k = false)
    ∧ ((handleWindowBlur m).2
        = concatEvents ((m.components.map Prod.fst).map (blurEventsFor m)))
    ∧ (handleWindowFocus m = ({ m with globalFocused := true }, []))
    ∧ (handleVisibilityChange m true = ({ m with globalFocused := true }, []))
    ∧ (handleVisibilityChange m false = handleWindowBlur m) := by
  have hg : handleWindowBlur m
      = blurKeys { m with globalFocused := false }
          (getRegisteredComponents { m with globalFocused := false }) := rfl
  refine ⟨?_, ?_, ?_, rfl, rfl, rfl⟩
  · rw [hg, blurKeys_globalFocused]
  · intro k
    rw [hg, isComponentFocused, blurKeys_findEntry]
    by_cases hk : k ∈ getRegisteredComponents { m with globalFocused := false }
    · rw [if_pos hk]
      cases findEntry ({ m with globalFocused := false } :
        ComponentFocusManager).components k <;> rfl
    · rw [if_neg hk]
      cases hfe : findEntry ({ m with globalFocused := false } :
        ComponentFocusManager).components k
      · rfl
      · exact absurd (mem_keys_of_findEntry _ _ _ hfe) hk
  · have hnd' : (getRegisteredComponents { m with globalFocused := false }).Nodup := hnd
    rw [hg, blurKeys_events _ _ hnd']
    rfl

/-- C3 witness: the global-blur theorem applied to `demoM4`, in which key `a`
is focused with listener 10 and key `b` is unfocused. -/
theorem global_visibility_blur_witness :
    isComponentFocused (handleWindowBlur demoM4).1 "a" = false
    ∧ (handleWindowBlur demoM4).2 = [FocusEvent.notifyListener "a" 10 false]
    ∧ handleWindowFocus demoM4 = ({ demoM4 with globalFocused := true }, []) :=
  ⟨(global_visibility_blur demoM4 (by decide)).2.1 "a",
   (global_visibility_blur demoM4 (by decide)).2.2.1,
   (global_visibility_blur demoM4 (by decide)).2.2.2.1⟩

/-- C4: `setComponentFocus` is a no-op on an unregistered key; on a registered
key it notifies listeners exactly when the value differs from the stored
state; and an immediate repeat of the same set emits no events at all. -/
theorem setFocus_idempotent (m : ComponentFocusManager) (k : ComponentKey) (v : Bool) :
    (findEntry m.components k = none → setComponentFocus m k v = (m, []))
    ∧ (∀ c, findEntry m.components k = some c →
        (setComponentFocus m k v).2
          = if c.focused = v then []
            else c.listeners.map (fun l => FocusEvent.notifyListener k l v)
              ++ (if v then dispatchEventsFor m.options c else []))
    ∧ ((setComponentFocus (setComponentFocus m k v).1 k v).2 = []) := by
  refine ⟨setComponentFocus_of_not_found m k v,
    fun c hc => setComponentFocus_events m k v c hc, ?_⟩
  cases hm : findEntry m.components k with
  | none =>
    have h1 : (setComponentFocus m k v).1 = m := by
      rw [setComponentFocus_of_not_found m k v hm]
    rw [h1, setComponentFocus_of_not_found m k v hm]
  | some c =>
    have h1 : findEntry (setComponentFocus m k v).1.components k
        = some { c with focused := v } := by
      rw [setComponentFocus_findEntry, if_pos rfl, hm]
      rfl
    rw [setComponentFocus_events _ k v _ h1, if_pos rfl]

/-- C4 witness: the first set of `a` to true on `demoM3` notifies listener 10
and dispatches the default invalidate; the immediate repeat emits nothing. -/
theorem setFocus_idempotent_witness :
    (setComponentFocus demoM3 "a" true).2
      = [FocusEvent.notifyListener "a" 10 true,
         FocusEvent.cacheDispatch 7 (CacheAction.invalidateQueries none RefetchType.all)]
    ∧ (setComponentFocus (setComponentFocus demoM3 "a" true).1 "a" true).2 = [] :=
  ⟨(setFocus_idempotent demoM3 "a" true).2.1 demoRecordA (by decide),
   (setFocus_idempotent demoM3 "a" true).2.2⟩

theorem mem_addListener_self (ls : List ListenerId) (lid : ListenerId) :
    lid ∈ addListener ls lid := by
  by_cases h : lid ∈ ls <;> simp [addListener, h]

/-- C5: subscribing to an unregistered key warns and returns a no-op
unsubscribe without touching the manager; subscribing to a registered key adds
the listener and synchronously notifies it exactly once with the current state
(even when that state is false); the returned unsubscribe deletes the listener
from the captured record and repeated unsubscribe runs are safe. -/
theorem subscribe_contract (m : ComponentFocusManager) (k : ComponentKey) (lid : ListenerId) :
    (findEntry m.components k = none →
      subscribeToComponent m k lid
        = (m, [FocusEvent.warn ("Component " ++ k ++ " is not registered")], Unsubscribe.noop)
      ∧ runUnsubscribe m Unsubscribe.noop = m)
    ∧ (∀ c, findEntry m.components k = some c →
        (subscribeToComponent m k lid).2.1 = [FocusEvent.notifyListener k lid c.focused]
        ∧ findEntry (subscribeToComponent m k lid).1.components k
            = some { c with listeners := addListener c.listeners lid }
        ∧ lid ∈ addListener c.listeners lid
        ∧ (subscribeToComponent m k lid).2.2 = Unsubscribe.removeFromRecord c.recordId lid)
    ∧ (∀ rid k', findEntry (runUnsubscribe m (Unsubscribe.removeFromRecord rid lid)).components k'
        = (findEntry m.components k').map (unsubscribeUpdate rid lid))
    ∧ (∀ ls : List ListenerId, lid ∉ removeListener ls lid)
    ∧ (∀ u, runUnsubscribe (runUnsubscribe m u) u = runUnsubscribe m u) := by
  refine ⟨?_, ?_, fun rid k' => runUnsubscribe_findEntry m rid lid k', ?_,
    fun u => runUnsubscribe_idem m u⟩
  · intro h
    exact ⟨subscribeToComponent_of_not_found m k lid h, rfl⟩
  · intro c hc
    refine ⟨?_, ?_, mem_addListener_self c.listeners lid, ?_⟩
    · rw [subscribeToComponent_found m k lid c hc]
    · have h2 := findEntry_updateEntry m.components k k
        (fun c' => { c' with listeners := addListener c'.listeners lid })
      rw [if_pos rfl, hc] at h2
      rw [subscribeToComponent_found m k lid c hc]
      exact h2
    · rw [subscribeToComponent_found m k lid c hc]
  · intro ls hmem
    exact ((mem_removeListener ls lid lid).mp hmem).2 rfl

/-- C5 witness: the subscription-contract theorem applied to `demoM2` for the
registered key `a` (listener 10) and the unregistered key `z`. -/
theorem subscribe_contract_witness :
    ((subscribeToComponent demoM2 "a" 10).2.1 = [FocusEvent.notifyListener "a" 10 false]
      ∧ findEntry (subscribeToComponent demoM2 "a" 10).1.components "a"
          = some { demoRecordA0 with listeners := addListener demoRecordA0.listeners 10 }
      ∧ (10 : ListenerId) ∈ addListener demoRecordA0.listeners 10
      ∧ (subscribeToComponent demoM2 "a" 10).2.2
          = Unsubscribe.removeFromRecord demoRecordA0.recordId 10)
    ∧ (subscribeToComponent demoM2 "z" 10
        = (demoM2, [FocusEvent.warn "Component z is not registered"], Unsubscribe.noop)
      ∧ runUnsubscribe demoM2 Unsubscribe.noop = demoM2) :=
  ⟨(subscribe_contract demoM2 "a" 10).2.1 demoRecordA0 (by decide),
   (subscribe_contract demoM2 "z" 10).1 (by decide)⟩

/-- C6 counterexample: key `a` of `demoM3` is unfocused and already holds
listener 10, yet a second subscription (listener 11) triggers an immediate
notification with no change of the stored focused state — the very first
subscription to a key is not the sole exception. -/
theorem second_subscription_notification_cex :
    (stepManager demoM3 (FocusOp.subscribe "a" 11)).2
      = [FocusEvent.notifyListener "a" 11 false]
    ∧ isComponentFocused demoM3 "a" = false
    ∧ (findEntry demoM3.components "a").map ComponentFocusState.listeners = some [10] := by
  decide

/-- C6 (amended): across every public manager call, a listener notification is
emitted only on an actual change of the record's stored focused state, with
the sole exception of `subscribeToComponent`, every call of which on a
registered key synchronously delivers the current state once to the
subscribing listener. -/
theorem notify_only_on_change (m : ComponentFocusManager) (op : FocusOp) :
    (∀ k lid b, FocusEvent.notifyListener k lid b ∈ (stepManager m op).2 →
      ∃ c, findEntry m.components k = some c
        ∧ (c.focused ≠ b ∨ (op = FocusOp.subscribe k lid ∧ b = c.focused)))
    ∧ (∀ k lid c, findEntry m.components k = some c →
        (stepManager m (FocusOp.subscribe k lid)).2
          = [FocusEvent.notifyListener k lid c.focused]) := by
  constructor
  · intro k lid b h
    cases op with
    | register k0 el qc opts =>
      cases el with
      | none =>
        have h' : FocusEvent.notifyListener k lid b
            ∈ [FocusEvent.warn
                ("ComponentFocusManager: Element not found for component " ++ k0)] := h
        simp at h'
      | some el =>
        have h' : FocusEvent.notifyListener k lid b ∈ (unregisterComponent m k0).2 := h
        have := unregisterComponent_no_notify m k0 _ h'
        simp [isNotifyEvent] at this
    | unregister k0 =>
      have := unregisterComponent_no_notify m k0 _ h
      simp [isNotifyEvent] at this
    | setFocus k0 v =>
      obtain ⟨hk, hb, c, hc, hf, _⟩ := notify_mem_setComponentFocus m k0 v k lid b h
      subst hk
      subst hb
      exact ⟨c, hc, Or.inl hf⟩
    | focus k0 =>
      obtain ⟨hk, hb, c, hc, hf, _⟩ := notify_mem_setComponentFocus m k0 true k lid b h
      subst hk
      subst hb
      exact ⟨c, hc, Or.inl hf⟩
    | blur k0 =>
      obtain ⟨hk, hb, c, hc, hf, _⟩ := notify_mem_setComponentFocus m k0 false k lid b h
      subst hk
      subst hb
      exact ⟨c, hc, Or.inl hf⟩
    | blurAll =>
      obtain ⟨hb, c, hc, hf, _⟩ := notify_mem_blurKeys (getRegisteredComponents m) m k lid b h
      subst hb
      refine ⟨c, hc, Or.inl ?_⟩
      rw [hf]
      simp
    | windowBlur =>
      obtain ⟨hb, c, hc, hf, _⟩ := notify_mem_blurKeys
        (getRegisteredComponents { m with globalFocused := false })
        { m with globalFocused := false } k lid b h
      subst hb
      refine ⟨c, hc, Or.inl ?_⟩
      rw [hf]
      simp
    | windowFocus => cases h
    | visibilityChange visible =>
      cases visible with
      | true => cases h
      | false =>
        obtain ⟨hb, c, hc, hf, _⟩ := notify_mem_blurKeys
          (getRegisteredComponents { m with globalFocused := false })
          { m with globalFocused := false } k lid b h
        subst hb
        refine ⟨c, hc, Or.inl ?_⟩
        rw [hf]
        simp
    | subscribe k0 lid0 =>
      cases hm : findEntry m.components k0 with
      | none =>
        have h' : FocusEvent.notifyListener k lid b
            ∈ (subscribeToComponent m k0 lid0).2.1 := h
        rw [subscribeToComponent_of_not_found m k0 lid0 hm] at h'
        simp at h'
      | some c =>
        have h' : FocusEvent.notifyListener k lid b
            ∈ (subscribeToComponent m k0 lid0).2.1 := h
        rw [subscribeToComponent_found m k0 lid0 c hm] at h'
        simp at h'
        obtain ⟨hk, hlid, hb⟩ := h'
        subst hk
        subst hlid
        subst hb
        exact ⟨c, hm, Or.inr ⟨rfl, rfl⟩⟩
    | unsubscribe u => cases h
    | runTear t =>
      cases t with
      | noop => cases h
      | unregisterKey k0 =>
        have := unregisterComponent_no_notify m k0 _ h
        simp [isNotifyEvent] at this
    | updateQueryClient k0 qc => cases h
    | updateOptions k0 opts => cases h
    | destroyAll =>
      have := unregisterKeys_no_notify (getRegisteredComponents m) m _ h
      simp [isNotifyEvent] at this
  · intro k lid c hc
    show (subscribeToComponent m k lid).2.1 = _
    rw [subscribeToComponent_found m k lid c hc]

/-- C6 witness: the amended notification invariant applied to `demoM3` and a
subscribe call: the immediate notification carries the current state. -/
theorem notify_only_on_change_witness :
    (stepManager demoM3 (FocusOp.subscribe "a" 11)).2
      = [FocusEvent.notifyListener "a" 11 demoRecordA.focused] :=
  (notify_only_on_change demoM3 (FocusOp.subscribe "a" 11)).2 "a" 11 demoRecordA (by decide)

/-- C7: every public call preserves at-most-one-record-per-key; a successful
registration stores a fresh unfocused record under the key (so the key reads
unfocused), emits exactly the prior registration's teardown events before the
new record exists, and replaces the prior intersection-observer handle. -/
theorem single_registration_per_key (m : ComponentFocusManager) (op : FocusOp)
    (k : ComponentKey) (el : DomElement) (qc : Option QueryClientId)
    (opts : Option ComponentFocusManagerOptions)
    (hnd : (getRegisteredComponents m).Nodup) :
    ((getRegisteredComponents (stepManager m op).1).Nodup)
    ∧ (isComponentFocused (registerComponent m k (some el) qc opts).1 k = false)
    ∧ (findEntry (registerComponent m k (some el) qc opts).1.components k
        = some { focused := false, queryClient := qc, listeners := [], options := opts,
                 recordId := m.nextRecordId })
    ∧ ((registerComponent m k (some el) qc opts).2.1 = (unregisterComponent m k).2)
    ∧ ((registerComponent m k (some el) qc opts).1.intersectionObservers
        = removeKey m.intersectionObservers k ++ [k]) := by
  refine ⟨stepManager_preserves_nodup m op hnd, ?_,
    registerComponent_findEntry_self m k el qc opts, rfl,
    registerComponent_intersection m k el qc opts⟩
  rw [isComponentFocused, registerComponent_findEntry_self]

/-- C7 witness: the single-registration theorem applied to `demoM1`. -/
theorem single_registration_per_key_witness :
    ((getRegisteredComponents (stepManager demoM1 (FocusOp.unregister "b")).1).Nodup)
    ∧ (isComponentFocused
        (registerComponent demoM1 "a" (some { hasParentElement := true }) (some 3) none).1 "a"
        = false)
    ∧ (findEntry
        (registerComponent demoM1 "a" (some { hasParentElement := true }) (some 3) none).1.components
        "a"
        = some { focused := false, queryClient := some 3, listeners := [], options := none,
                 recordId := demoM1.nextRecordId })
    ∧ ((registerComponent demoM1 "a" (some { hasParentElement := true }) (some 3) none).2.1
        = (unregisterComponent demoM1 "a").2)
    ∧ ((registerComponent demoM1 "a"
          (some { hasParentElement := true }) (some 3) none).1.intersectionObservers
        = removeKey demoM1.intersectionObservers "a" ++ ["a"]) :=
  single_registration_per_key demoM1 (FocusOp.unregister "b") "a"
    { hasParentElement := true } (some 3) none (by decide)

/-- C8: registering with an absent element emits the diagnostic and returns
the unchanged manager together with a no-op teardown — no record is created,
no map is touched, nothing is thrown — and running that no-op teardown also
changes nothing. -/
theorem register_without_element (m : ComponentFocusManager) (k : ComponentKey)
    (qc : Option QueryClientId) (opts : Option ComponentFocusManagerOptions) :
    registerComponent m k none qc opts
      = (m,
         [FocusEvent.warn ("ComponentFocusManager: Element not found for component " ++ k)],
         Teardown.noop)
    ∧ runTeardown m Teardown.noop = (m, []) :=
  ⟨rfl, rfl⟩

/-- C9: unregistering disconnects and discards both watchers for the key and
deletes the record without notifying any listener; it is a no-op when the key
is absent; afterwards the key reads unfocused and the registered-components
snapshot holds exactly the remaining keys, e.g. a, b, c minus b leaves a, c. -/
theorem unregister_contract (m : ComponentFocusManager) (k : ComponentKey) :
    (isComponentFocused (unregisterComponent m k).1 k = false)
    ∧ (getRegisteredComponents (unregisterComponent m k).1
        = removeKey (getRegisteredComponents m) k)
    ∧ ((unregisterComponent m k).2.filter isNotifyEvent = [])
    ∧ ((unregisterComponent m k).1.intersectionObservers
        = removeKey m.intersectionObservers k)
    ∧ ((unregisterComponent m k).1.mutationObservers = removeKey m.mutationObservers k)
    ∧ (k ∈ m.intersectionObservers →
        FocusEvent.disconnectIntersection k ∈ (unregisterComponent m k).2)
    ∧ (k ∈ m.mutationObservers →
        FocusEvent.disconnectMutation k ∈ (unregisterComponent m k).2)
    ∧ (findEntry m.components k = none → k ∉ m.intersectionObservers →
        k ∉ m.mutationObservers → unregisterComponent m k = (m, []))
    ∧ (getRegisteredComponents
        (unregisterComponent (registerComponent (registerComponent (registerComponent
          (createComponentFocusManager {}) "a" (some { hasParentElement := false }) none none).1
          "b" (some { hasParentElement := false }) none none).1
          "c" (some { hasParentElement := false }) none none).1 "b").1 = ["a", "c"]) := by
  refine ⟨?_, unregisterComponent_keys m k, ?_, rfl, rfl, ?_, ?_,
    fun h1 h2 h3 => unregisterComponent_of_absent m k h1 h2 h3, by decide⟩
  · rw [isComponentFocused, unregisterComponent_findEntry, if_pos rfl]
  · rw [List.filter_eq_nil_iff]
    intro e he
    have := unregisterComponent_no_notify m k e he
    simp [this]
  · intro hmem
    simp [unregisterComponent, hmem]
  · intro hmem
    simp [unregisterComponent, hmem]

/-- C9 witness: the unregister-contract theorem applied to `demoM4`, key `a`
(which holds both an intersection and a mutation watcher). -/
theorem unregister_contract_witness :
    isComponentFocused (unregisterComponent demoM4 "a").1 "a" = false
    ∧ getRegisteredComponents (unregisterComponent demoM4 "a").1
        = removeKey (getRegisteredComponents demoM4) "a"
    ∧ FocusEvent.disconnectIntersection "a" ∈ (unregisterComponent demoM4 "a").2
    ∧ FocusEvent.disconnectMutation "a" ∈ (unregisterComponent demoM4 "a").2 :=
  ⟨(unregister_contract demoM4 "a").1,
   (unregister_contract demoM4 "a").2.1,
   (unregister_contract demoM4 "a").2.2.2.2.2.1 (by decide),
   (unregister_contract demoM4 "a").2.2.2.2.2.2.1 (by decide)⟩

/-- C10: the teardown closure returned by a successful registration
unregisters by key name: running it removes whatever record currently exists
under the key — a stale teardown run after re-registration tears down the new
record — and repeated runs are idempotent, the second finding nothing. -/
theorem teardown_by_key_idempotent (m : ComponentFocusManager) (k : ComponentKey)
    (el el2 : DomElement) (qc : Option QueryClientId)
    (opts : Option ComponentFocusManagerOptions) :
    ((registerComponent m k (some el) qc opts).2.2 = Teardown.unregisterKey k)
    ∧ (∀ m' : ComponentFocusManager,
        runTeardown m' (Teardown.unregisterKey k) = unregisterComponent m' k)
    ∧ (findEntry (registerComponent m k (some el2) qc opts).1.components k ≠ none)
    ∧ (findEntry (runTeardown (registerComponent m k (some el2) qc opts).1
        (Teardown.unregisterKey k)).1.components k = none)
    ∧ (runTeardown (runTeardown m (Teardown.unregisterKey k)).1 (Teardown.unregisterKey k)
        = ((runTeardown m (Teardown.unregisterKey k)).1, [])) := by
  refine ⟨rfl, fun m' => rfl, ?_, ?_, unregister_idem m k⟩
  · rw [registerComponent_findEntry_self]
    simp
  · show findEntry
      (unregisterComponent (registerComponent m k (some el2) qc opts).1 k).1.components k = none
    rw [unregisterComponent_findEntry, if_pos rfl]

/-- C10 witness: the by-key teardown theorem applied to `demoM1`, key `a`. -/
theorem teardown_by_key_idempotent_witness :
    ((registerComponent demoM1 "a" (some { hasParentElement := true }) none none).2.2
        = Teardown.unregisterKey "a")
    ∧ (findEntry (runTeardown (registerComponent demoM1 "a"
          (some { hasParentElement := false }) none none).1
          (Teardown.unregisterKey "a")).1.components "a" = none)
    ∧ (runTeardown (runTeardown demoM1 (Teardown.unregisterKey "a")).1
          (Teardown.unregisterKey "a")
        = ((runTeardown demoM1 (Teardown.unregisterKey "a")).1, [])) :=
  ⟨(teardown_by_key_idempotent demoM1 "a" { hasParentElement := true }
      { hasParentElement := false } none none).1,
   (teardown_by_key_idempotent demoM1 "a" { hasParentElement := true }
      { hasParentElement := false } none none).2.2.2.1,
   (teardown_by_key_idempotent demoM1 "a" { hasParentElement := true }
      { hasParentElement := false } none none).2.2.2.2⟩

